import Mathlib

/-!
Verification development for the cloudsweeper repository.

The cleanup controller (`cloudsweeper/cleanup/cleanup.go`) and the AWS
resource gateway (`cloud` package, AWS implementation) are embedded
shallowly below.  Pure Go functions become Lean functions; Go loops become
folds/filters; the process-fatal paths (`log.Fatal`, out-of-range slice
indexing) become `Option.none`; outcomes of remote provider calls are
passed in as explicit oracle arguments.  Time is modelled as `Int`
(seconds), money as `ℚ`.

The `cloud/filter` package and the base resource structs are not among the
available sources (only their call sites are), so those definitions are
modelled from the specification document and are marked
`Modelled from the spec:` in their doc comments.
-/

namespace Cloudsweeper

/-- Base resource data shared by every resource kind (`cloud` package
`baseResource`): provider-unique id, creation time, and the tag map
captured when the resource was listed. -/
structure Rsrc where
  id : String
  creationTime : Int
  tags : List (String × String)
deriving DecidableEq

/-- Lookup of a tag value by key in a tag map. -/
def lookupTag (tags : List (String × String)) (k : String) : Option String :=
  (tags.find? (fun kv => kv.1 == k)).map (fun kv => kv.2)

/-- Compute instance (`baseInstance`). -/
structure Instance where
  res : Rsrc
  instanceType : String := ""
deriving DecidableEq

/-- Machine image (`baseImage`): adds the image name used by the
component-date format predicates. -/
structure Image where
  res : Rsrc
  name : String
  sizeGB : Int := 0
deriving DecidableEq

/-- Block volume (`baseVolume`). -/
structure Volume where
  res : Rsrc
  attached : Bool := false
  sizeGB : Int := 0
deriving DecidableEq

/-- Snapshot (`baseSnapshot`); `inUse` is the precomputed flag the
snapshot filter reads. -/
structure Snapshot where
  res : Rsrc
  inUse : Bool := false
  sizeGB : Int := 0
deriving DecidableEq

/-- Storage bucket: adds the last-modified time read by the bucket filter. -/
structure Bucket where
  res : Rsrc
  lastModified : Int := 0
deriving DecidableEq

/-- Number of seconds in a day, the unit conversion for the day-valued
thresholds. -/
def secondsPerDay : Int := 86400

/-- Modelled from the spec: the fixed deletion-marker tag key shared by the
mark, perform and reset phases (`filter.DeleteTagKey`; the string constant
lives in the absent `cloud/filter` package and its exact spelling is
irrelevant to every claim). -/
def DeleteTagKey : String := "cloudsweeper-delete-at"

/-- Modelled from the spec: the `Lifetime` marker tag key (max permitted
age). -/
def lifetimeTagKey : String := "cloudsweeper-lifetime"

/-- Modelled from the spec: the `ExpiryDate` marker tag key (absolute
expiry date). -/
def expiryTagKey : String := "cloudsweeper-expiry"

/-- Modelled from the spec: `OlderThanXDays(n)` is true iff
`now - creationTime >= n days`. -/
def olderThanXDays (n : Int) (now : Int) (r : Rsrc) : Bool :=
  decide (n * secondsPerDay ≤ now - r.creationTime)

/-- Modelled from the spec: `HasTag(key)` is true iff the key is present. -/
def hasTag (k : String) (r : Rsrc) : Bool :=
  (lookupTag r.tags k).isSome

/-- Modelled from the spec: `IsUntaggedWithException(exceptKey)` — the tag
map is empty except possibly for `exceptKey`. -/
def isUntaggedWithException (exceptKey : String) (r : Rsrc) : Bool :=
  r.tags.all (fun kv => kv.1 == exceptKey)

/-- Modelled from the spec: `TaggedForCleanup()` is true iff the
`DeleteAt` tag key is present. -/
def taggedForCleanup (r : Rsrc) : Bool :=
  hasTag DeleteTagKey r

/-- Modelled from the spec: `Negate(rule)` wraps a rule with boolean
inversion. -/
def negate (rule : Rsrc → Bool) (r : Rsrc) : Bool :=
  !rule r

/-- Modelled from the spec: `IsUnattached()` (volume-only). -/
def isUnattached (v : Volume) : Bool :=
  !v.attached

/-- Modelled from the spec: `IsNotInUse()` (snapshot-only). -/
def isNotInUse (s : Snapshot) : Bool :=
  !s.inUse

/-- Modelled from the spec: `NotModifiedInXDays(n)` (bucket-only). -/
def notModifiedInXDays (n : Int) (now : Int) (b : Bucket) : Bool :=
  decide (n * secondsPerDay ≤ now - b.lastModified)

/-- Numeric value of a list of decimal digit characters. -/
def digitsVal (cs : List Char) : Nat :=
  cs.foldl (fun n c => n * 10 + (c.toNat - 48)) 0

/-- Parse a nonempty all-digit character list as a natural number. -/
def parseDigits (cs : List Char) : Option Nat :=
  if !cs.isEmpty && cs.all Char.isDigit then some (digitsVal cs) else none

/-- Parse a decimal integer string (optional leading minus sign). -/
def parseIntString (s : String) : Option Int :=
  match s.data with
  | [] => none
  | c :: rest =>
    if c = '-' then (parseDigits rest).map (fun n => -(n : Int))
    else (parseDigits (c :: rest)).map (fun n => (n : Int))

/-- Modelled from the spec: read a marker tag and interpret its value as a
time; the time-string encoding of the absent `cloud/filter` package is
modelled as a decimal integer rendering. -/
def tagTimeValue (r : Rsrc) (k : String) : Option Int :=
  (lookupTag r.tags k).bind parseIntString

/-- Modelled from the spec: `LifetimeExceeded()` — the `Lifetime` tag is
present and `age ≥ value`; false (not an error) when absent. -/
def lifetimeExceeded (now : Int) (r : Rsrc) : Bool :=
  match tagTimeValue r lifetimeTagKey with
  | some v => decide (v ≤ now - r.creationTime)
  | none => false

/-- Modelled from the spec: `ExpiryDatePassed()` — the `ExpiryDate` tag is
present and `now ≥ value`; false when absent. -/
def expiryDatePassed (now : Int) (r : Rsrc) : Bool :=
  match tagTimeValue r expiryTagKey with
  | some v => decide (v ≤ now)
  | none => false

/-- Modelled from the spec: `DeleteAtPassed()` — the `DeleteAt` tag is
present and `now ≥ value`; false when absent. -/
def deleteAtPassed (now : Int) (r : Rsrc) : Bool :=
  match tagTimeValue r DeleteTagKey with
  | some v => decide (v ≤ now)
  | none => false

/-- Modelled from the spec: `ParseFormat` of the absent `cloud/filter`
package — an image name parses as `<component-name>-<YYYYMMDDhhmmss>`
where the component name is everything before the last hyphen-delimited
segment and the trailing segment must be exactly the 14-digit timestamp
format; the timestamp is returned as its numeric value (numeric order
agrees with chronological order for this fixed-width format).  Parsing
failure is `none`.  Helper `splitOnDash` splits a character list at every
hyphen, like `strings.Split(name, "-")`. -/
def splitOnDash : List Char → List (List Char)
  | [] => [[]]
  | c :: rest =>
    match splitOnDash rest with
    | [] => [[c]]
    | g :: gs => if c = '-' then [] :: g :: gs else (c :: g) :: gs

/-- Modelled from the spec: see `splitOnDash`; an image name parses when
its trailing hyphen-delimited segment is exactly 14 decimal digits. -/
def parseFormatName (nm : String) : Option (String × Int) :=
  match (splitOnDash nm.data).reverse with
  | [] => none
  | [_] => none
  | ts :: restRev =>
    if ts.length == 14 && ts.all Char.isDigit then
      some (String.mk (List.intercalate ['-'] restRev.reverse), (digitsVal ts : Int))
    else none

/-- Modelled from the spec: `FollowsFormat()` (image-only). -/
def followsFormat (i : Image) : Bool :=
  (parseFormatName i.name).isSome

/-- Modelled from the spec: `DoesNotFollowFormat()` (image-only); parsing
failure counts as does-not-follow. -/
def doesNotFollowFormat (i : Image) : Bool :=
  !(parseFormatName i.name).isSome

/-- Modelled from the spec: a `Filter` is an ordered set of typed
predicate slots — general rules applying to any resource plus one rule
list per specialized kind. -/
structure Filter where
  general : List (Rsrc → Bool) := []
  instanceRules : List (Instance → Bool) := []
  imageRules : List (Image → Bool) := []
  volumeRules : List (Volume → Bool) := []
  snapshotRules : List (Snapshot → Bool) := []
  bucketRules : List (Bucket → Bool) := []

/-- Modelled from the spec: `filter.New()` — an empty filter matches
everything. -/
def Filter.new : Filter := {}

/-- Modelled from the spec: `AddGeneralRule`. -/
def Filter.addGeneralRule (f : Filter) (r : Rsrc → Bool) : Filter :=
  { f with general := f.general ++ [r] }

/-- Modelled from the spec: `AddInstanceRule`. -/
def Filter.addInstanceRule (f : Filter) (r : Instance → Bool) : Filter :=
  { f with instanceRules := f.instanceRules ++ [r] }

/-- Modelled from the spec: `AddImageRule`. -/
def Filter.addImageRule (f : Filter) (r : Image → Bool) : Filter :=
  { f with imageRules := f.imageRules ++ [r] }

/-- Modelled from the spec: `AddVolumeRule`. -/
def Filter.addVolumeRule (f : Filter) (r : Volume → Bool) : Filter :=
  { f with volumeRules := f.volumeRules ++ [r] }

/-- Modelled from the spec: `AddSnapshotRule`. -/
def Filter.addSnapshotRule (f : Filter) (r : Snapshot → Bool) : Filter :=
  { f with snapshotRules := f.snapshotRules ++ [r] }

/-- Modelled from the spec: `AddBucketRule`. -/
def Filter.addBucketRule (f : Filter) (r : Bucket → Bool) : Filter :=
  { f with bucketRules := f.bucketRules ++ [r] }

/-- Modelled from the spec: a filter accepts an instance iff every general
rule and every instance rule accepts it (AND across populated slots). -/
def Filter.matchInstance (f : Filter) (i : Instance) : Bool :=
  f.general.all (fun g => g i.res) && f.instanceRules.all (fun r => r i)

/-- Modelled from the spec: filter acceptance for images. -/
def Filter.matchImage (f : Filter) (i : Image) : Bool :=
  f.general.all (fun g => g i.res) && f.imageRules.all (fun r => r i)

/-- Modelled from the spec: filter acceptance for volumes. -/
def Filter.matchVolume (f : Filter) (v : Volume) : Bool :=
  f.general.all (fun g => g v.res) && f.volumeRules.all (fun r => r v)

/-- Modelled from the spec: filter acceptance for snapshots. -/
def Filter.matchSnapshot (f : Filter) (s : Snapshot) : Bool :=
  f.general.all (fun g => g s.res) && f.snapshotRules.all (fun r => r s)

/-- Modelled from the spec: filter acceptance for buckets. -/
def Filter.matchBucket (f : Filter) (b : Bucket) : Bool :=
  f.general.all (fun g => g b.res) && f.bucketRules.all (fun r => r b)

/-- Modelled from the spec: `filter.Instances(list, ...filters)` — multiple
`Filter` arguments are combined with further conjunction (equivalent to
merging all their slots). -/
def filterInstances (xs : List Instance) (fs : List Filter) : List Instance :=
  xs.filter (fun i => fs.all (fun f => f.matchInstance i))

/-- Modelled from the spec: `filter.Images(list, ...filters)`. -/
def filterImages (xs : List Image) (fs : List Filter) : List Image :=
  xs.filter (fun i => fs.all (fun f => f.matchImage i))

/-- Modelled from the spec: `filter.Volumes(list, ...filters)`. -/
def filterVolumes (xs : List Volume) (fs : List Filter) : List Volume :=
  xs.filter (fun v => fs.all (fun f => f.matchVolume v))

/-- Modelled from the spec: `filter.Snapshots(list, ...filters)`. -/
def filterSnapshots (xs : List Snapshot) (fs : List Filter) : List Snapshot :=
  xs.filter (fun s => fs.all (fun f => f.matchSnapshot s))

/-- Modelled from the spec: `filter.Buckets(list, ...filters)`. -/
def filterBuckets (xs : List Bucket) (fs : List Filter) : List Bucket :=
  xs.filter (fun b => fs.all (fun f => f.matchBucket b))

/-- One account's inventory of the four EC2-listed resource kinds
(`cloud.ResourceCollection`). -/
structure ResourceCollection where
  instances : List Instance := []
  images : List Image := []
  volumes : List Volume := []
  snapshots : List Snapshot := []
deriving DecidableEq

/-- One account's full selection result (`cloud.AllResourceCollection`). -/
structure AllResourceCollection where
  instances : List Instance := []
  images : List Image := []
  volumes : List Volume := []
  snapshots : List Snapshot := []
  buckets : List Bucket := []
deriving DecidableEq

/-- The single-rule lifetime filter built by `cleanupLifetimePassed`. -/
def lifetimeFilter (now : Int) : Filter :=
  Filter.new.addGeneralRule (lifetimeExceeded now)

/-- The single-rule expiry filter built by `cleanupLifetimePassed`. -/
def expiryFilter (now : Int) : Filter :=
  Filter.new.addGeneralRule (expiryDatePassed now)

/-- The single-rule delete-at filter built by `cleanupLifetimePassed`. -/
def deleteAtFilter (now : Int) : Filter :=
  Filter.new.addGeneralRule (deleteAtPassed now)

/-- Per-account resource selection of `cleanupLifetimePassed` (the body of
`PerformCleanup`): each kind is filtered with the three marker filters
passed as variadic arguments; the bucket kind runs only when the owner has
a bucket list. -/
def cleanupSelection (now : Int) (col : ResourceCollection)
    (buckets : Option (List Bucket)) : AllResourceCollection :=
  let fs := [lifetimeFilter now, expiryFilter now, deleteAtFilter now]
  { instances := filterInstances col.instances fs
    images := filterImages col.images fs
    volumes := filterVolumes col.volumes fs
    snapshots := filterSnapshots col.snapshots fs
    buckets := match buckets with
      | some bs => filterBuckets bs fs
      | none => [] }

/-- The `untaggedFilter` built at the top of the `MarkForCleanup` account
loop (cleanup.go lines 61-66). -/
def untaggedFilter (now thUntagged : Int) : Filter :=
  ((((Filter.new.addGeneralRule
    (isUntaggedWithException "Name")).addGeneralRule
    (olderThanXDays thUntagged now)).addSnapshotRule
    isNotInUse).addGeneralRule
    (negate taggedForCleanup)).addVolumeRule
    isUnattached

/-- The `instanceFilter` of `MarkForCleanup` (cleanup.go lines 69-71). -/
def instanceFilter (now thInstances : Int) : Filter :=
  (Filter.new.addGeneralRule
    (olderThanXDays thInstances now)).addGeneralRule
    (negate taggedForCleanup)

/-- The `noNameFilter` of `MarkForCleanup` (cleanup.go lines 73-77). -/
def noNameFilter (now thUntagged : Int) : Filter :=
  (((Filter.new.addGeneralRule
    (olderThanXDays thUntagged now)).addGeneralRule
    (isUntaggedWithException "Name")).addGeneralRule
    (negate (hasTag "Name"))).addGeneralRule
    (negate taggedForCleanup)

/-- The `volumeFilter` of `MarkForCleanup` (cleanup.go lines 103-106). -/
def volumeFilter (now thUnattached : Int) : Filter :=
  ((Filter.new.addVolumeRule
    isUnattached).addGeneralRule
    (olderThanXDays thUnattached now)).addGeneralRule
    (negate taggedForCleanup)

/-- The `snapshotFilter` of `MarkForCleanup` (cleanup.go lines 117-120). -/
def snapshotFilter (now thSnapshots : Int) : Filter :=
  ((Filter.new.addGeneralRule
    (olderThanXDays thSnapshots now)).addSnapshotRule
    isNotInUse).addGeneralRule
    (negate taggedForCleanup)

/-- The `bucketFilter` of `MarkForCleanup` (cleanup.go lines 131-134). -/
def bucketFilter (now thBucketNotMod thBucketOld : Int) : Filter :=
  ((Filter.new.addBucketRule
    (notModifiedInXDays thBucketNotMod now)).addGeneralRule
    (olderThanXDays thBucketOld now)).addGeneralRule
    (negate taggedForCleanup)

/-- The `unformattedImageFilter` of `MarkForCleanup` (cleanup.go lines
145-148). -/
def unformattedImageFilter (now thImages : Int) : Filter :=
  ((Filter.new.addGeneralRule
    (olderThanXDays thImages now)).addGeneralRule
    (negate taggedForCleanup)).addImageRule
    doesNotFollowFormat

/-- The `formattedImageFilter` of `MarkForCleanup` (cleanup.go lines
150-152). -/
def formattedImageFilter : Filter :=
  (Filter.new.addGeneralRule
    (negate taggedForCleanup)).addImageRule
    followsFormat

/-- Modelled from the spec: the two-value `ParseFormat` of the absent
`cloud/filter` package as called by `getAllButNLatestComponents` — it
returns a component name and a creation date for EVERY image, since both
call sites (cleanup.go lines 226 and 254) consume the two results
unconditionally with no error path.  A name following the
component-timestamp format yields its parsed pair; the fallback pair for
any other name is unknown and modelled as the whole name with timestamp 0
(no settled claim depends on this choice — the unconditional grouping
alone decides them). -/
def parseFormat (nm : String) : String × Int :=
  (parseFormatName nm).getD (nm, 0)

/-- Creation dates of every image of the given component name, in list
order — the `componentDatesMap` entry built by the first loop of
`getAllButNLatestComponents` (cleanup.go lines 225-231): every image is
appended to its component's entry unconditionally, whether or not its
name follows the format. -/
def datesOfComponent (images : List Image) (c : String) : List Int :=
  images.filterMap (fun i =>
    if (parseFormat i.name).1 == c then some (parseFormat i.name).2 else none)

/-- Descending sort of the date list — `sort.Slice` with an `After`
comparator. -/
def sortDesc (xs : List Int) : List Int :=
  List.insertionSort (· ≥ ·) xs

/-- The `findThreshold` closure of `getAllButNLatestComponents`:
`minimumIndex` is `componentsToKeep` clamped above by the number of dates,
and the threshold is the element at `minimumIndex - 1` of the descending
sort.  The out-of-range index of the Go slice access (a panic) and the
fatal missing-component branch are modelled as `none`. -/
def findThreshold (images : List Image) (componentsToKeep : Int) (c : String) : Option Int :=
  let times := sortDesc (datesOfComponent images c)
  let minimumIndex : Int :=
    if componentsToKeep > (times.length : Int) then (times.length : Int) else componentsToKeep
  if 1 ≤ minimumIndex then times.get? (minimumIndex - 1).toNat else none

/-- Body of the second loop of `getAllButNLatestComponents` (cleanup.go
lines 253-260): EVERY image — its name parsed by the two-value
`ParseFormat` — looks up its component's threshold and is appended when
its creation date is strictly older (`creationDate.Before(threshold)`); a
panic inside `findThreshold` aborts the whole computation (`none`). -/
def retentionStep (images : List Image) (componentsToKeep : Int)
    (acc : List Image) (i : Image) : Option (List Image) :=
  match findThreshold images componentsToKeep (parseFormat i.name).1 with
  | none => none
  | some t => some (if (parseFormat i.name).2 < t then acc ++ [i] else acc)

/-- Embedding of `getAllButNLatestComponents` (cleanup.go lines 221-262):
fold `retentionStep` over the image list starting from the empty
candidate list. -/
def getAllButNLatestComponents (images : List Image) (componentsToKeep : Int) :
    Option (List Image) :=
  images.foldlM (retentionStep images componentsToKeep) []

/-- The per-kind pass lists built by one iteration of the `MarkForCleanup`
account loop, kept separate because the two instance passes feed different
tag lists and the three image passes share a seen-id set. -/
structure MarkSel where
  noNameInstances : List Instance := []
  generalInstances : List Instance := []
  volumes : List Volume := []
  snapshots : List Snapshot := []
  buckets : List Bucket := []
  untaggedImages : List Image := []
  unformattedImages : List Image := []
  formattedImages : List Image := []
deriving DecidableEq

/-- A selection loop guarded by a seen-id set: an image is appended (and
its id recorded) only when its id has not been seen — the
`alreadySelectedImages` pattern of the second and third image passes. -/
def dedupSelect (seen : List String) (xs : List Image) : List Image × List String :=
  xs.foldl (fun acc i =>
    if acc.2.contains i.res.id then acc
    else (acc.1 ++ [i], acc.2 ++ [i.res.id])) ([], seen)

/-- Threshold lookup keys used by the account loop, in the role of the
`getThreshold` closure; a missing key is `log.Fatalf` in the Go code and
aborts the embedding (`none`). -/
def markAccountSel (now : Int) (th : String → Option Int)
    (col : ResourceCollection) (buckets : Option (List Bucket)) : Option MarkSel := do
  let thUntagged ← th "clean-untagged-older-than-days"
  let thInstances ← th "clean-instances-older-than-days"
  let thUnattached ← th "clean-unattached-older-than-days"
  let thSnapshots ← th "clean-snapshots-older-than-days"
  let thBucketNotMod ← th "clean-bucket-not-modified-days"
  let thBucketOld ← th "clean-bucket-older-than-days"
  let thImages ← th "clean-images-older-than-days"
  let keepN ← th "clean-keep-n-component-images"
  let uf := untaggedFilter now thUntagged
  let noName := filterInstances col.instances [noNameFilter now thUntagged]
  let general := filterInstances col.instances [instanceFilter now thInstances, uf]
  let vols := filterVolumes col.volumes [volumeFilter now thUnattached, uf]
  let snaps := filterSnapshots col.snapshots [snapshotFilter now thSnapshots, uf]
  let bucks := match buckets with
    | some bs => filterBuckets bs [bucketFilter now thBucketNotMod thBucketOld, uf]
    | none => []
  let untaggedImgs := filterImages col.images [uf]
  let seen1 := untaggedImgs.map (fun i => i.res.id)
  let p2 := dedupSelect seen1 (filterImages col.images [unformattedImageFilter now thImages])
  let formattedCandidates ← getAllButNLatestComponents col.images keepN
  let p3 := dedupSelect p2.2 (filterImages formattedCandidates [formattedImageFilter])
  pure { noNameInstances := noName, generalInstances := general,
         volumes := vols, snapshots := snaps, buckets := bucks,
         untaggedImages := untaggedImgs, unformattedImages := p2.1,
         formattedImages := p3.1 }

/-- The combined instance list appended to `resourcesToTag.Instances`:
no-name pass first, then the general pass (the
`alreadySelectedInstances` map is written by both passes but never
consulted, so no dedup happens here). -/
def MarkSel.selInstances (m : MarkSel) : List Instance :=
  m.noNameInstances ++ m.generalInstances

/-- The combined image list appended to `resourcesToTag.Images` across the
three image passes. -/
def MarkSel.selImages (m : MarkSel) : List Image :=
  m.untaggedImages ++ m.unformattedImages ++ m.formattedImages

/-- The `resourcesToTag` collection returned for one account. -/
def selectionOf (m : MarkSel) : AllResourceCollection :=
  { instances := m.selInstances, images := m.selImages,
    volumes := m.volumes, snapshots := m.snapshots, buckets := m.buckets }

/-- Ids of the resources appended to `tagListGeneral`, in append order:
general-pass instances, volumes, snapshots, buckets, then images. -/
def generalTagIds (m : MarkSel) : List String :=
  m.generalInstances.map (fun i => i.res.id)
    ++ m.volumes.map (fun v => v.res.id)
    ++ m.snapshots.map (fun s => s.res.id)
    ++ m.buckets.map (fun b => b.res.id)
    ++ m.selImages.map (fun i => i.res.id)

/-- Ids of the resources appended to `tagListUnnamedInstances`. -/
def unnamedTagIds (m : MarkSel) : List String :=
  m.noNameInstances.map (fun i => i.res.id)

/-- The external cost-estimator collaborator (`billing` package), passed in
as opaque pure functions. -/
structure Billing where
  costInstance : Instance → ℚ
  costImage : Image → ℚ
  costVolume : Volume → ℚ
  costSnapshot : Snapshot → ℚ
  bucketMonthly : Bucket → ℚ

/-- Age of a resource in days: `time.Now().Sub(creationTime).Hours()/24`. -/
def ageInDays (now : Int) (r : Rsrc) : ℚ :=
  ((now - r.creationTime : Int) : ℚ) / 86400

/-- The per-account `totalCost` accumulated by the selection loops:
`ageInDays * costPerDay` for every appended instance (duplicates counted
as often as appended), volume, snapshot and image, plus a flat monthly
cost per bucket. -/
def totalCostOf (b : Billing) (now : Int) (m : MarkSel) : ℚ :=
  (m.selInstances.map (fun i => ageInDays now i.res * b.costInstance i)).sum
    + (m.volumes.map (fun v => ageInDays now v.res * b.costVolume v)).sum
    + (m.snapshots.map (fun s => ageInDays now s.res * b.costSnapshot s)).sum
    + (m.buckets.map (fun bk => b.bucketMonthly bk)).sum
    + (m.selImages.map (fun i => ageInDays now i.res * b.costImage i)).sum

/-- One attempted `SetTag` call recorded by the mark phase. -/
structure TagWrite where
  id : String
  key : String
  value : Int
  overwrite : Bool
deriving DecidableEq

/-- The `totalCostThreshold` constant of the cleanup package (10.0
currency units). -/
def totalCostThreshold : ℚ := 10

/-- Embedding of `applyTags` (cleanup.go lines 201-216): on a dry run
nothing is written; when the account's total cost is below the threshold
nothing is written; otherwise every resource in the list gets a
`SetTag(DeleteTagKey, timeToDelete, overwrite=true)` call (failures of the
individual calls are logged and do not stop the loop, so the write list
records every attempted call). -/
def applyTags (ids : List String) (timeToDelete : Int) (totalCost : ℚ)
    (dryRun : Bool) : List TagWrite :=
  if dryRun then []
  else if totalCost < totalCostThreshold then []
  else ids.map (fun i => { id := i, key := DeleteTagKey, value := timeToDelete, overwrite := true })

/-- One iteration of the `MarkForCleanup` account loop: build the pass
lists, then apply tags to the general list with the four-day horizon and
to the unnamed-instance list with the one-day horizon, both gated by the
same per-account total cost. -/
def markAccount (now : Int) (th : String → Option Int) (col : ResourceCollection)
    (buckets : Option (List Bucket)) (b : Billing) (dryRun : Bool) :
    Option (AllResourceCollection × List TagWrite) :=
  (markAccountSel now th col buckets).map (fun m =>
    (selectionOf m,
      applyTags (generalTagIds m) (now + 4 * secondsPerDay) (totalCostOf b now m) dryRun
        ++ applyTags (unnamedTagIds m) (now + 1 * secondsPerDay) (totalCostOf b now m) dryRun))

/-- Accumulating fold of the `MarkForCleanup` account loop: process each
account with the per-account body `g`, collecting the per-owner selections
and concatenating the attempted tag writes; a fatal path in any account
aborts the run. -/
def markFold (g : (String × ResourceCollection) → Option (AllResourceCollection × List TagWrite))
    (accounts : List (String × ResourceCollection))
    (acc : List (String × AllResourceCollection) × List TagWrite) :
    Option (List (String × AllResourceCollection) × List TagWrite) :=
  accounts.foldlM (fun acc oc =>
    (g oc).map (fun sw => (acc.1 ++ [(oc.1, sw.1)], acc.2 ++ sw.2))) acc

/-- Embedding of `MarkForCleanup` (cleanup.go lines 30-199) over the
per-account inventory: each account is processed by `markAccount`; the
returned map of selections and the sequence of attempted tag writes are
accumulated. -/
def MarkForCleanup (now : Int) (th : String → Option Int)
    (accounts : List (String × ResourceCollection))
    (bucketsOf : String → Option (List Bucket)) (b : Billing) (dryRun : Bool) :
    Option (List (String × AllResourceCollection) × List TagWrite) :=
  markFold (fun oc => markAccount now th oc.2 (bucketsOf oc.1) b dryRun) accounts ([], [])

/-- The slice of an `awsImage` relevant to `MakePrivate`: the id and the
cached `public` flag. -/
structure AwsImage where
  id : String
  public : Bool
deriving DecidableEq

/-- Embedding of `awsImage.MakePrivate` (cloud package, AWS
implementation): a no-op returning success when the cached flag says the
image is already private; otherwise the `ModifyImageAttribute` revoke call
runs (its outcome passed in as `callErr`), the error is returned without
touching the cached flag on failure, and only on success is `public` set
to false. -/
def makePrivate (i : AwsImage) (callErr : Option String) : AwsImage × Option String :=
  if !i.public then (i, none)
  else
    match callErr with
    | some e => (i, some e)
    | none => ({ i with public := false }, none)

/-- Tagging state of one remote resource: the tag map cached at listing
time (what `r.Tags()` returns) and the authoritative provider-side tag
map mutated by `CreateTags`. -/
structure TagState where
  cached : List (String × String)
  remote : List (String × String)
deriving DecidableEq

/-- Errors returned by the tagging path: the already-tagged refusal
produced locally by `addAWSTag`, or a provider error from the remote
`CreateTags` call. -/
inductive TagErr where
  | alreadyTagged (key id : String)
  | provider (e : String)
deriving DecidableEq

/-- Insert-or-overwrite of one key in a tag map, the provider-side effect
of a successful `CreateTags` call. -/
def upsertTag (m : List (String × String)) (k v : String) : List (String × String) :=
  if (lookupTag m k).isSome then
    m.map (fun kv => if kv.1 == k then (k, v) else kv)
  else m ++ [(k, v)]

/-- Embedding of `addAWSTag` (cloud package, AWS implementation): when the
key exists in the CACHED tag map and `overwrite` is false, return the
already-exists error before any remote call; otherwise run `CreateTags`
(outcome passed in as `callErr`), which on success upserts the key on the
remote side.  Note that the cached map is never updated. -/
def addAWSTag (s : TagState) (rid key value : String) (overwrite : Bool)
    (callErr : Option String) : TagState × Option TagErr :=
  if (lookupTag s.cached key).isSome && !overwrite then
    (s, some (TagErr.alreadyTagged key rid))
  else
    match callErr with
    | some e => (s, some (TagErr.provider e))
    | none => ({ s with remote := upsertTag s.remote key value }, none)

/-- Embedding of `cleanupResources` (cloud package, AWS implementation):
every resource's `Cleanup()` is issued (outcomes passed in as the
`outcome` oracle, `none` meaning success); the loop never stops early, a
shared failure flag is OR-accumulated, and the batch returns an error iff
the flag was set.  The first component records every attempted cleanup in
order. -/
def cleanupResources (rs : List String) (outcome : String → Option String) :
    List String × Option String :=
  let p := rs.foldl (fun acc r => (acc.1 ++ [r], acc.2 || (outcome r).isSome)) ([], false)
  (p.1, if p.2 then some "One or more resource cleanups failed" else none)

/-- Predicate fixing the corrected retention rule: an image is a
retention-cleanup candidate iff its creation date (per the two-value
`ParseFormat`) is STRICTLY before its component group's threshold (the
`N`-th newest date of the group, or the oldest when the group has fewer
than `N`). -/
def retentionPred (images : List Image) (componentsToKeep : Int) (i : Image) : Bool :=
  match findThreshold images componentsToKeep (parseFormat i.name).1 with
  | some t => decide ((parseFormat i.name).2 < t)
  | none => false

/-- The default clean-phase threshold configuration (cmd/cloudsweeper
config defaults). -/
def thDefault : String → Option Int := fun k =>
  (([("clean-untagged-older-than-days", 30),
     ("clean-instances-older-than-days", 182),
     ("clean-images-older-than-days", 182),
     ("clean-snapshots-older-than-days", 182),
     ("clean-unattached-older-than-days", 30),
     ("clean-bucket-not-modified-days", 182),
     ("clean-bucket-older-than-days", 7),
     ("clean-keep-n-component-images", 2)] : List (String × Int)).find?
    (fun kv => kv.1 == k)).map (fun kv => kv.2)

/-- A cost estimator charging one currency unit per resource-day and per
bucket-month. -/
def unitBilling : Billing :=
  { costInstance := fun _ => 1, costImage := fun _ => 1, costVolume := fun _ => 1,
    costSnapshot := fun _ => 1, bucketMonthly := fun _ => 1 }

/-- An instance whose only marker is a `DeleteAt` tag that has already
passed: `DeleteAtPassed` holds but `LifetimeExceeded` and
`ExpiryDatePassed` do not. -/
def deleteAtOnlyInstance : Instance :=
  { res := { id := "i-del", creationTime := 0, tags := [(DeleteTagKey, "0")] } }

/-- A 200-day-old completely untagged running instance — old enough for
both the no-name pass (30-day threshold) and the general pass (182-day
threshold). -/
def untaggedOldInstance : Instance :=
  { res := { id := "i-1", creationTime := 0, tags := [] }, instanceType := "m1.small" }

/-- Day 200 as an absolute time in seconds. -/
def day200 : Int := 200 * 86400

/-- Component image `web-20230101000000`. -/
def webImage1 : Image :=
  { res := { id := "ami-1", creationTime := 0, tags := [] }, name := "web-20230101000000" }

/-- Component image `web-20230102000000`. -/
def webImage2 : Image :=
  { res := { id := "ami-2", creationTime := 0, tags := [] }, name := "web-20230102000000" }

/-- Component image `web-20230103000000`. -/
def webImage3 : Image :=
  { res := { id := "ami-3", creationTime := 0, tags := [] }, name := "web-20230103000000" }

/-- The three-image `web` component group of the specification's concrete
retention example. -/
def webImages : List Image := [webImage1, webImage2, webImage3]

/-- An image whose name does not follow the component-timestamp format. -/
def unformattedImage : Image :=
  { res := { id := "ami-x", creationTime := 0, tags := [] }, name := "noformat" }

/-! ## Theorems -/

theorem lookupTag_nil (k : String) : lookupTag [] k = none := rfl

theorem lookupTag_append_of_none {m : List (String × String)} {k : String}
    (h : lookupTag m k = none) (v : String) :
    lookupTag (m ++ [(k, v)]) k = some v := by
  induction m with
  | nil => simp [lookupTag]
  | cons kv m ih =>
    simp only [lookupTag, List.find?] at h ⊢
    cases hk : (kv.1 == k) with
    | true => simp [hk] at h
    | false =>
      simp only [hk] at h ⊢
      exact ih h

theorem lookupTag_map_overwrite {m : List (String × String)} {k : String}
    (h : (lookupTag m k).isSome = true) (v : String) :
    lookupTag (m.map (fun kv => if kv.1 == k then (k, v) else kv)) k = some v := by
  induction m with
  | nil => simp [lookupTag] at h
  | cons kv m ih =>
    cases hk : (kv.1 == k) with
    | true =>
      simp only [List.map, hk, if_true]
      simp only [lookupTag]
      rw [List.find?_cons_of_pos _ (by simp)]
      rfl
    | false =>
      have h2 : (lookupTag m k).isSome = true := by
        simp only [lookupTag] at h
        rw [List.find?_cons_of_neg _ (by simp [hk])] at h
        exact h
      simp only [List.map, hk, if_false]
      simp only [lookupTag] at ih ⊢
      rw [List.find?_cons_of_neg _ (by simp [hk])]
      exact ih h2

theorem lookupTag_upsertTag (m : List (String × String)) (k v : String) :
    lookupTag (upsertTag m k v) k = some v := by
  unfold upsertTag
  cases h : (lookupTag m k).isSome with
  | true => simp only [h, if_true]; exact lookupTag_map_overwrite h v
  | false =>
    simp only [h, Bool.false_eq_true, if_false]
    exact lookupTag_append_of_none (by
      cases hm : lookupTag m k with
      | none => rfl
      | some w => rw [hm] at h; simp at h) v

/-- Claim C6: `MakePrivate` on an image is a no-op returning success when
the image is already private; when it is public and the revoke call
fails, the error is returned and the cached `public` flag is not flipped;
only on success is `public` set to false. -/
theorem c6_make_private (i : AwsImage) (c : Option String) :
    (i.public = false → makePrivate i c = (i, none)) ∧
    (i.public = true → ∀ e, makePrivate i (some e) = (i, some e) ∧
      (makePrivate i (some e)).1.public = true) ∧
    (i.public = true → makePrivate i none = ({ i with public := false }, none)) := by
  refine ⟨fun h => ?_, fun h e => ?_, fun h => ?_⟩ <;>
    simp [makePrivate, h]

theorem c6_make_private_witness :
    makePrivate { id := "ami-0", public := true } (some "denied") =
      ({ id := "ami-0", public := true }, some "denied") ∧
    makePrivate { id := "ami-0", public := true } none =
      ({ id := "ami-0", public := false }, none) ∧
    makePrivate { id := "ami-0", public := false } none =
      ({ id := "ami-0", public := false }, none) :=
  ⟨((c6_make_private { id := "ami-0", public := true } (some "denied")).2.1 rfl "denied").1,
   (c6_make_private { id := "ami-0", public := true } none).2.2 rfl,
   (c6_make_private { id := "ami-0", public := false } none).1 rfl⟩

theorem cleanupResources_foldl (outcome : String → Option String) :
    ∀ (l : List String) (a : List String) (f : Bool),
      (l.foldl (fun acc r => (acc.1 ++ [r], acc.2 || (outcome r).isSome)) (a, f)) =
        (a ++ l, f || l.any (fun r => (outcome r).isSome)) := by
  intro l
  induction l with
  | nil => intro a f; simp
  | cons x l ih =>
    intro a f
    simp only [List.foldl, List.any_cons]
    rw [ih]
    simp [Bool.or_assoc]

/-- Claim C8: `cleanupResources` issues `Cleanup()` for every resource in
the list, attempts every deletion even if some fail, and returns success
iff every individual cleanup succeeded. -/
theorem c8_cleanup_fanout (rs : List String) (outcome : String → Option String) :
    (cleanupResources rs outcome).1 = rs ∧
    ((cleanupResources rs outcome).2 = none ↔ ∀ r ∈ rs, outcome r = none) := by
  unfold cleanupResources
  rw [cleanupResources_foldl]
  constructor
  · simp
  · simp only [Bool.false_or]
    cases h : rs.any (fun r => (outcome r).isSome) with
    | true =>
      simp only [if_true, reduceCtorEq, false_iff, not_forall]
      simp only [List.any_eq_true] at h
      obtain ⟨r, hr, hsome⟩ := h
      exact ⟨r, hr, by cases ho : outcome r <;> simp [ho] at hsome ⊢⟩
    | false =>
      simp only [Bool.false_eq_true, if_false, true_iff]
      simp only [List.any_eq_false] at h
      intro r hr
      have := h r hr
      cases ho : outcome r with
      | none => rfl
      | some e => rw [ho] at this; simp at this

theorem c8_cleanup_fanout_witness :
    (cleanupResources ["a", "b"] (fun _ => none)).1 = ["a", "b"] ∧
    (cleanupResources ["a", "b"] (fun _ => none)).2 = none :=
  ⟨(c8_cleanup_fanout ["a", "b"] (fun _ => none)).1,
   (c8_cleanup_fanout ["a", "b"] (fun _ => none)).2.mpr (fun _ _ => rfl)⟩

/-- Claim C4: cost-threshold gating in the mark phase — below the 10.0
threshold `applyTags` (with `dryRun = false`) writes nothing; at or above
it, every resource in the list gets the `SetTag(DeleteTagKey, horizon,
overwrite=true)` call; and at the `markAccount` level a below-threshold
account produces an empty write list. -/
theorem c4_cost_threshold_gate :
    (∀ (ids : List String) (t : Int) (c : ℚ), c < totalCostThreshold →
      applyTags ids t c false = []) ∧
    (∀ (ids : List String) (t : Int) (c : ℚ), totalCostThreshold ≤ c →
      applyTags ids t c false =
        ids.map (fun i => { id := i, key := DeleteTagKey, value := t, overwrite := true })) ∧
    (∀ (now : Int) (th : String → Option Int) (col : ResourceCollection)
        (bks : Option (List Bucket)) (b : Billing) (m : MarkSel),
      markAccountSel now th col bks = some m →
      totalCostOf b now m < totalCostThreshold →
      markAccount now th col bks b false = some (selectionOf m, [])) ∧
    (∀ (now : Int) (th : String → Option Int) (col : ResourceCollection)
        (bks : Option (List Bucket)) (b : Billing) (m : MarkSel),
      markAccountSel now th col bks = some m →
      totalCostThreshold ≤ totalCostOf b now m →
      markAccount now th col bks b false = some (selectionOf m,
        (generalTagIds m).map (fun i =>
          { id := i, key := DeleteTagKey, value := now + 4 * secondsPerDay, overwrite := true })
          ++ (unnamedTagIds m).map (fun i =>
            { id := i, key := DeleteTagKey, value := now + 1 * secondsPerDay, overwrite := true }))) := by
  refine ⟨fun ids t c h => ?_, fun ids t c h => ?_,
    fun now th col bks b m hm hc => ?_, fun now th col bks b m hm hc => ?_⟩
  · simp [applyTags, h]
  · simp [applyTags, not_lt.mpr h]
  · simp [markAccount, hm, applyTags, hc]
  · simp [markAccount, hm, applyTags, not_lt.mpr hc]

theorem c4_cost_threshold_gate_witness :
    applyTags ["a", "b"] 0 (9.99 : ℚ) false = [] ∧
    applyTags ["a", "b"] 0 (10.01 : ℚ) false =
      [{ id := "a", key := DeleteTagKey, value := 0, overwrite := true },
       { id := "b", key := DeleteTagKey, value := 0, overwrite := true }] :=
  ⟨c4_cost_threshold_gate.1 ["a", "b"] 0 (9.99 : ℚ) (by norm_num [totalCostThreshold]),
   (c4_cost_threshold_gate.2.1 ["a", "b"] 0 (10.01 : ℚ) (by norm_num [totalCostThreshold])).trans rfl⟩

/-- Claim C7 counterexample: on a resource whose cached tag map lacks the
key, `SetTag(k, v, overwrite=false)` succeeds, and the SECOND
`SetTag(k, v2, overwrite=false)` also succeeds (no AlreadyTagged error) —
because the cached map was never updated — leaving `v2` (not `v`) as the
remote tag value. -/
theorem c7_overwrite_false_counterexample :
    (addAWSTag { cached := [], remote := [] } "r-1" "k" "v" false none).2 = none ∧
    (addAWSTag (addAWSTag { cached := [], remote := [] } "r-1" "k" "v" false none).1
      "r-1" "k" "v2" false none).2 = none ∧
    lookupTag ((addAWSTag (addAWSTag { cached := [], remote := [] } "r-1" "k" "v" false none).1
      "r-1" "k" "v2" false none).1).remote "k" = some "v2" := by
  refine ⟨rfl, rfl, rfl⟩

/-- Claim C7 (amended): `SetTag` with `overwrite=false` fails with
AlreadyTagged exactly when the key is present in the CACHED tag map taken
at listing time; a successful call never updates that cache, so a second
`SetTag(r,k,v2,false)` on the same in-memory resource succeeds and leaves
`v2` as the remote value. -/
theorem c7_set_tag_cache_semantics :
    (∀ (s : TagState) (rid k v : String) (ow : Bool) (c : Option String),
      ((addAWSTag s rid k v ow c).2 = some (TagErr.alreadyTagged k rid)) ↔
        ((lookupTag s.cached k).isSome = true ∧ ow = false)) ∧
    (∀ (s : TagState) (rid k v : String) (ow : Bool) (c : Option String),
      (addAWSTag s rid k v ow c).1.cached = s.cached) ∧
    (∀ (s : TagState) (rid k v v2 : String), lookupTag s.cached k = none →
      (addAWSTag s rid k v false none).2 = none ∧
      (addAWSTag (addAWSTag s rid k v false none).1 rid k v2 false none).2 = none ∧
      lookupTag ((addAWSTag (addAWSTag s rid k v false none).1 rid k v2 false none).1).remote k =
        some v2) := by
  refine ⟨fun s rid k v ow c => ?_, fun s rid k v ow c => ?_, fun s rid k v v2 h => ?_⟩
  · unfold addAWSTag
    cases hc : (lookupTag s.cached k).isSome with
    | true =>
      cases ow with
      | true => cases c <;> simp
      | false => simp
    | false =>
      cases c <;> cases ow <;> simp [hc]
  · unfold addAWSTag
    cases (lookupTag s.cached k).isSome && !ow with
    | true => rfl
    | false => cases c <;> rfl
  · have h1 : addAWSTag s rid k v false none =
        ({ s with remote := upsertTag s.remote k v }, none) := by
      unfold addAWSTag; simp [h]
    refine ⟨by rw [h1], ?_, ?_⟩
    · rw [h1]
      unfold addAWSTag
      simp [h]
    · rw [h1]
      unfold addAWSTag
      simp only [h]
      simp [lookupTag_upsertTag]

theorem c7_set_tag_cache_semantics_witness :
    ((addAWSTag { cached := [("Name", "x")], remote := [("Name", "x")] } "r-9" "Name" "y" false
      none).2 = some (TagErr.alreadyTagged "Name" "r-9")) ∧
    (addAWSTag { cached := [], remote := [] } "r-9" "k" "v" false none).2 = none :=
  ⟨(c7_set_tag_cache_semantics.1 { cached := [("Name", "x")], remote := [("Name", "x")] }
      "r-9" "Name" "y" false none).2 ⟨rfl, rfl⟩,
   (c7_set_tag_cache_semantics.2.2 { cached := [], remote := [] } "r-9" "k" "v" "v2" rfl).1⟩

theorem markAccount_dry_run (now : Int) (th : String → Option Int)
    (col : ResourceCollection) (bks : Option (List Bucket)) (b : Billing) :
    markAccount now th col bks b true =
      (markAccountSel now th col bks).map (fun m => (selectionOf m, [])) := by
  simp [markAccount, applyTags]

theorem markFold_dry
    (g : (String × ResourceCollection) → Option (AllResourceCollection × List TagWrite))
    (hg : ∀ oc sw, g oc = some sw → sw.2 = []) :
    ∀ (accounts : List (String × ResourceCollection))
      (acc : List (String × AllResourceCollection) × List TagWrite),
      acc.2 = [] → ∀ p, markFold g accounts acc = some p → p.2 = [] := by
  intro accounts
  induction accounts with
  | nil =>
    intro acc hacc p hp
    simp only [markFold, List.foldlM_nil] at hp
    cases hp
    exact hacc
  | cons x l ih =>
    intro acc hacc p hp
    simp only [markFold, List.foldlM_cons] at hp
    cases hgx : g x with
    | none => rw [hgx] at hp; simp at hp
    | some sw =>
      rw [hgx] at hp
      simp only [Option.map_some', Option.some_bind] at hp
      exact ih (acc.1 ++ [(x.1, sw.1)], acc.2 ++ sw.2)
        (by simp [hacc, hg x sw hgx]) p hp

/-- Claim C5: running `MarkForCleanup` with `dryRun = true` writes no
tags — the accumulated `SetTag` call list of a completed run is empty. -/
theorem c5_dry_run_writes_nothing (now : Int) (th : String → Option Int)
    (accounts : List (String × ResourceCollection))
    (bucketsOf : String → Option (List Bucket)) (b : Billing)
    (p : List (String × AllResourceCollection) × List TagWrite)
    (h : MarkForCleanup now th accounts bucketsOf b true = some p) :
    p.2 = [] := by
  have hg : ∀ (oc : String × ResourceCollection)
      (sw : AllResourceCollection × List TagWrite),
      markAccount now th oc.2 (bucketsOf oc.1) b true = some sw → sw.2 = [] := by
    intro oc sw hsw
    rw [markAccount_dry_run] at hsw
    cases hms : markAccountSel now th oc.2 (bucketsOf oc.1) with
    | none => rw [hms] at hsw; simp at hsw
    | some m =>
      rw [hms] at hsw
      simp only [Option.map_some', Option.some.injEq] at hsw
      rw [← hsw]
  exact markFold_dry (fun oc => markAccount now th oc.2 (bucketsOf oc.1) b true)
    (fun oc sw hsw => hg oc sw hsw) accounts ([], []) rfl p h

theorem c5_dry_run_writes_nothing_witness :
    (([("acct", ({ instances := [untaggedOldInstance, untaggedOldInstance] } :
        AllResourceCollection))], ([] : List TagWrite))).2 = ([] : List TagWrite) :=
  c5_dry_run_writes_nothing day200 thDefault
    [("acct", { instances := [untaggedOldInstance] })] (fun _ => none) unitBilling
    ([("acct", { instances := [untaggedOldInstance, untaggedOldInstance] })], []) (by rfl)

theorem markAccount_of_sel {now : Int} {th : String → Option Int}
    {col : ResourceCollection} {bks : Option (List Bucket)} {m : MarkSel}
    (b : Billing) (dryRun : Bool) (h : markAccountSel now th col bks = some m) :
    markAccount now th col bks b dryRun =
      some (selectionOf m,
        applyTags (generalTagIds m) (now + 4 * secondsPerDay) (totalCostOf b now m) dryRun
          ++ applyTags (unnamedTagIds m) (now + 1 * secondsPerDay) (totalCostOf b now m) dryRun) := by
  simp [markAccount, h]

theorem markFold_fst_congr
    (g1 g2 : (String × ResourceCollection) → Option (AllResourceCollection × List TagWrite))
    (hpt : ∀ oc, Option.map Prod.fst (g1 oc) = Option.map Prod.fst (g2 oc)) :
    ∀ (accounts : List (String × ResourceCollection))
      (a1 a2 : List (String × AllResourceCollection) × List TagWrite),
      a1.1 = a2.1 →
      Option.map Prod.fst (markFold g1 accounts a1) =
        Option.map Prod.fst (markFold g2 accounts a2) := by
  intro accounts
  induction accounts with
  | nil =>
    intro a1 a2 h
    simp only [markFold, List.foldlM_nil]
    simp [h]
  | cons x l ih =>
    intro a1 a2 h
    simp only [markFold, List.foldlM_cons]
    have hx := hpt x
    cases h1 : g1 x with
    | none =>
      rw [h1] at hx
      cases h2 : g2 x with
      | none => rfl
      | some sw2 => rw [h2] at hx; simp at hx
    | some sw1 =>
      rw [h1] at hx
      cases h2 : g2 x with
      | none => rw [h2] at hx; simp at hx
      | some sw2 =>
        rw [h2] at hx
        simp only [Option.map_some', Option.some.injEq] at hx
        simp only [Option.map_some', Option.some_bind]
        exact ih _ _ (by simp [h, hx])

theorem markAccount_fst_eq (now : Int) (th : String → Option Int)
    (col : ResourceCollection) (bks : Option (List Bucket))
    (b1 b2 : Billing) (d1 d2 : Bool) :
    Option.map Prod.fst (markAccount now th col bks b1 d1) =
      Option.map Prod.fst (markAccount now th col bks b2 d2) := by
  cases hms : markAccountSel now th col bks with
  | none => simp [markAccount, hms]
  | some m => simp [markAccount, hms]

/-- Claim C9: the per-account selection returned by `MarkForCleanup`
depends neither on the `dryRun` flag nor on the cost estimator (hence not
on whether the total cost meets the threshold): two runs on the same
inventory and thresholds return the same selection map; the gate
suppresses only the tag writes. -/
theorem c9_selection_independent (now : Int) (th : String → Option Int)
    (accounts : List (String × ResourceCollection))
    (bucketsOf : String → Option (List Bucket)) (b1 b2 : Billing) (d1 d2 : Bool) :
    Option.map Prod.fst (MarkForCleanup now th accounts bucketsOf b1 d1) =
      Option.map Prod.fst (MarkForCleanup now th accounts bucketsOf b2 d2) :=
  markFold_fst_congr (fun oc => markAccount now th oc.2 (bucketsOf oc.1) b1 d1)
    (fun oc => markAccount now th oc.2 (bucketsOf oc.1) b2 d2)
    (fun oc => markAccount_fst_eq now th oc.2 (bucketsOf oc.1) b1 b2 d1 d2)
    accounts ([], []) ([], []) rfl

/-- Claim C1 counterexample: an instance carrying only a passed `DeleteAt`
marker satisfies the disjunction of the three markers, yet
`cleanupLifetimePassed` does not select it — because the three
single-marker filters passed as variadic arguments are combined by
conjunction, not disjunction. -/
theorem c1_disjunction_counterexample :
    deleteAtPassed 100 deleteAtOnlyInstance.res = true ∧
    lifetimeExceeded 100 deleteAtOnlyInstance.res = false ∧
    expiryDatePassed 100 deleteAtOnlyInstance.res = false ∧
    (cleanupSelection 100 { instances := [deleteAtOnlyInstance] } none).instances = [] := by
  refine ⟨by decide, by decide, by decide, by decide⟩

/-- Claim C1 (amended): `PerformCleanup` selects, for every kind, exactly
those resources for which ALL THREE of `LifetimeExceeded()`,
`ExpiryDatePassed()` and `DeleteAtPassed()` hold, since the several
`Filter` arguments of one filter application are combined by conjunction
(merging their slots). -/
theorem c1_marker_conjunction_selection (now : Int) (col : ResourceCollection)
    (buckets : Option (List Bucket)) :
    cleanupSelection now col buckets =
      { instances := col.instances.filter (fun i =>
          lifetimeExceeded now i.res && expiryDatePassed now i.res && deleteAtPassed now i.res),
        images := col.images.filter (fun i =>
          lifetimeExceeded now i.res && expiryDatePassed now i.res && deleteAtPassed now i.res),
        volumes := col.volumes.filter (fun v =>
          lifetimeExceeded now v.res && expiryDatePassed now v.res && deleteAtPassed now v.res),
        snapshots := col.snapshots.filter (fun s =>
          lifetimeExceeded now s.res && expiryDatePassed now s.res && deleteAtPassed now s.res),
        buckets := match buckets with
          | some bs => bs.filter (fun b =>
              lifetimeExceeded now b.res && expiryDatePassed now b.res && deleteAtPassed now b.res)
          | none => [] } := by
  cases buckets with
  | none =>
    simp [cleanupSelection, filterInstances, filterImages, filterVolumes, filterSnapshots,
      filterBuckets, Filter.matchInstance, Filter.matchImage, Filter.matchVolume,
      Filter.matchSnapshot, Filter.matchBucket, lifetimeFilter, expiryFilter, deleteAtFilter,
      Filter.new, Filter.addGeneralRule, Bool.and_assoc]
  | some bs =>
    simp [cleanupSelection, filterInstances, filterImages, filterVolumes, filterSnapshots,
      filterBuckets, Filter.matchInstance, Filter.matchImage, Filter.matchVolume,
      Filter.matchSnapshot, Filter.matchBucket, lifetimeFilter, expiryFilter, deleteAtFilter,
      Filter.new, Filter.addGeneralRule, Bool.and_assoc]

/-- Claim C2 (code bug): the untagged 200-day-old instance is matched by
both the no-name pass and the general pass of `MarkForCleanup`, and it
appears TWICE in the selected instance list and receives TWO `SetTag`
calls with different deletion horizons — the `alreadySelectedInstances`
seen-id map is populated by both passes but never consulted, so the
de-duplication the specification requires does not happen for
instances. -/
theorem c2_instance_double_selection :
    markAccount day200 thDefault { instances := [untaggedOldInstance] } none unitBilling false =
      some ({ instances := [untaggedOldInstance, untaggedOldInstance] },
        [{ id := "i-1", key := DeleteTagKey, value := day200 + 4 * secondsPerDay, overwrite := true },
         { id := "i-1", key := DeleteTagKey, value := day200 + 1 * secondsPerDay, overwrite := true }]) := by
  have hm : markAccountSel day200 thDefault { instances := [untaggedOldInstance] } none =
      some { noNameInstances := [untaggedOldInstance],
             generalInstances := [untaggedOldInstance] } := by
    decide
  rw [markAccount_of_sel unitBilling false hm]
  have hc : totalCostOf unitBilling day200
      { noNameInstances := [untaggedOldInstance], generalInstances := [untaggedOldInstance] } =
        400 := by
    norm_num [totalCostOf, MarkSel.selInstances, MarkSel.selImages, ageInDays, unitBilling,
      untaggedOldInstance, day200]
  rw [hc]
  have hgate : ∀ ids t, applyTags ids t (400 : ℚ) false =
      ids.map (fun i => { id := i, key := DeleteTagKey, value := t, overwrite := true }) := by
    intro ids t
    simp [applyTags, totalCostThreshold]
    norm_num
  rw [hgate, hgate]
  decide

theorem mem_datesOfComponent {images : List Image} {i : Image} (hi : i ∈ images) :
    (parseFormat i.name).2 ∈ datesOfComponent images (parseFormat i.name).1 := by
  unfold datesOfComponent
  rw [List.mem_filterMap]
  exact ⟨i, hi, by simp⟩

theorem sortDesc_length (xs : List Int) : (sortDesc xs).length = xs.length :=
  List.length_insertionSort _ xs

theorem findThreshold_of_nonpos {images : List Image} {k : Int} (c : String)
    (hk : k ≤ 0) : findThreshold images k c = none := by
  simp only [findThreshold]
  have h0 : (0 : Int) ≤ ((sortDesc (datesOfComponent images c)).length : Int) := by positivity
  rw [if_neg (by omega : ¬k > ((sortDesc (datesOfComponent images c)).length : Int))]
  rw [if_neg (by omega : ¬(1 : Int) ≤ k)]

theorem findThreshold_isSome {images : List Image} {k : Int} {c : String}
    (hk : 1 ≤ k) (hne : datesOfComponent images c ≠ []) :
    (findThreshold images k c).isSome = true := by
  simp only [findThreshold]
  have hlen : 0 < (sortDesc (datesOfComponent images c)).length := by
    rw [sortDesc_length]
    exact List.length_pos.mpr hne
  by_cases hkl : k > ((sortDesc (datesOfComponent images c)).length : Int)
  · rw [if_pos hkl]
    rw [if_pos (by omega)]
    rw [List.get?_eq_getElem?, List.getElem?_eq_getElem (by omega)]
    rfl
  · rw [if_neg hkl]
    rw [if_pos hk]
    rw [List.get?_eq_getElem?, List.getElem?_eq_getElem (by omega)]
    rfl

theorem findThreshold_min {images : List Image} {k : Int} {c : String} {t : Int}
    (hlt : ((datesOfComponent images c).length : Int) < k)
    (hft : findThreshold images k c = some t) :
    ∀ d ∈ datesOfComponent images c, t ≤ d := by
  simp only [findThreshold] at hft
  have hgt : k > ((sortDesc (datesOfComponent images c)).length : Int) := by
    rw [sortDesc_length]; omega
  rw [if_pos hgt] at hft
  by_cases hlen : (1 : Int) ≤ ((sortDesc (datesOfComponent images c)).length : Int)
  · rw [if_pos hlen] at hft
    rw [List.get?_eq_some] at hft
    obtain ⟨hidx, hget⟩ := hft
    intro d hd
    have hdmem : d ∈ sortDesc (datesOfComponent images c) := by
      simp [sortDesc, List.mem_insertionSort, hd]
    rw [List.mem_iff_get] at hdmem
    obtain ⟨j, hj⟩ := hdmem
    have hsorted : (sortDesc (datesOfComponent images c)).Sorted (· ≥ ·) :=
      List.sorted_insertionSort _ _
    have hle : j ≤ (⟨(((sortDesc (datesOfComponent images c)).length : Int) - 1).toNat, hidx⟩ :
        Fin (sortDesc (datesOfComponent images c)).length) := by
      have := j.isLt
      simp only [Fin.le_def]
      omega
    have := hsorted.rel_get_of_le hle
    rw [hj, hget] at this
    exact this
  · rw [if_neg hlen] at hft
    cases hft

theorem getAllButN_fold_eq (images : List Image) (k : Int) :
    ∀ (l : List Image),
      (∀ i ∈ l, (findThreshold images k (parseFormat i.name).1).isSome = true) →
      ∀ acc, List.foldlM (retentionStep images k) acc l =
        some (acc ++ l.filter (retentionPred images k)) := by
  intro l
  induction l with
  | nil =>
    intro _ acc
    simp [List.foldlM_nil]
  | cons i l ih =>
    intro hall acc
    rw [List.foldlM_cons]
    have hsome := hall i (List.mem_cons_self i l)
    cases hft : findThreshold images k (parseFormat i.name).1 with
    | none => rw [hft] at hsome; simp at hsome
    | some t =>
      have hstep : retentionStep images k acc i =
          some (if (parseFormat i.name).2 < t then acc ++ [i] else acc) := by
        simp [retentionStep, hft]
      rw [hstep]
      show List.foldlM (retentionStep images k)
        (if (parseFormat i.name).2 < t then acc ++ [i] else acc) l =
        some (acc ++ List.filter (retentionPred images k) (i :: l))
      by_cases hdt : (parseFormat i.name).2 < t
      · have hpred : retentionPred images k i = true := by
          simp [retentionPred, hft, hdt]
        rw [if_pos hdt, List.filter_cons_of_pos (by simp [hpred])]
        rw [ih (fun j hj => hall j (List.mem_cons_of_mem i hj)) (acc ++ [i])]
        simp
      · have hpred : retentionPred images k i = false := by
          simp [retentionPred, hft, hdt]
        rw [if_neg hdt, List.filter_cons_of_neg (by simp [hpred])]
        exact ih (fun j hj => hall j (List.mem_cons_of_mem i hj)) acc

theorem getAllButN_eq_filter {images : List Image} {k : Int} (hk : 1 ≤ k) :
    getAllButNLatestComponents images k =
      some (images.filter (retentionPred images k)) := by
  unfold getAllButNLatestComponents
  rw [getAllButN_fold_eq images k images ?hall []]
  · rw [List.nil_append]
  case hall =>
    intro i hi
    exact findThreshold_isSome hk
      (List.ne_nil_of_mem (mem_datesOfComponent hi))

theorem getAllButN_none_fold (images : List Image) (k : Int)
    (hnone : ∀ c, findThreshold images k c = none) :
    ∀ (l : List Image), l ≠ [] →
      ∀ acc, List.foldlM (retentionStep images k) acc l = none := by
  intro l hne acc
  cases l with
  | nil => cases hne rfl
  | cons i l =>
    rw [List.foldlM_cons]
    have hstep : retentionStep images k acc i = none := by
      simp [retentionStep, hnone]
    rw [hstep]
    rfl

/-- Claim C3 counterexample: with the three `web` images and `N = 2`, the
image `web-20230102000000` has its timestamp AT (equal to) the 2nd-newest
timestamp of its group, yet it is NOT selected — the code keeps it
(strict `Before` comparison), refuting the claim's "at or before"
selection rule. -/
theorem c3_at_or_before_counterexample :
    getAllButNLatestComponents webImages 2 = some [webImage1] ∧
    parseFormatName webImage2.name = some ("web", 20230102000000) ∧
    findThreshold webImages 2 "web" = some 20230102000000 := by
  refine ⟨by decide, by decide, by decide⟩

/-- Claim C3 (amended): component-image retention — grouping images by
parsed component name, an image is a retention-cleanup candidate exactly
when its timestamp is STRICTLY BEFORE the group threshold (the `N`-th
newest timestamp, or the oldest one when the group has fewer than `N`
images); consequently a group with fewer than `N` images contributes no
candidate, and on the concrete `web` example with `N = 2` the selection
is exactly `web-20230101000000` while with `N = 5` it is empty. -/
theorem c3_retention_strictly_before :
    (∀ (images : List Image) (k : Int), 1 ≤ k →
      getAllButNLatestComponents images k =
        some (images.filter (retentionPred images k))) ∧
    (∀ (images : List Image) (k : Int) (i : Image) (c : String) (d : Int)
        (l : List Image), 1 ≤ k →
      parseFormatName i.name = some (c, d) →
      ((datesOfComponent images c).length : Int) < k →
      getAllButNLatestComponents images k = some l → i ∉ l) ∧
    getAllButNLatestComponents webImages 2 = some [webImage1] ∧
    getAllButNLatestComponents webImages 5 = some [] := by
  refine ⟨fun images k hk => getAllButN_eq_filter hk,
    fun images k i c d l hk hp hlt hres hmem => ?_, by decide, by decide⟩
  rw [getAllButN_eq_filter hk] at hres
  cases hres
  rw [List.mem_filter] at hmem
  obtain ⟨hi, hpred⟩ := hmem
  have hpf : parseFormat i.name = (c, d) := by
    simp [parseFormat, hp]
  simp only [retentionPred, hpf] at hpred
  cases hft : findThreshold images k c with
  | none => rw [hft] at hpred; cases hpred
  | some t =>
    rw [hft] at hpred
    have hd : d ∈ datesOfComponent images c := by
      have hmem2 := @mem_datesOfComponent images i hi
      rw [hpf] at hmem2
      exact hmem2
    have hmin := findThreshold_min hlt hft d hd
    simp only [decide_eq_true_eq] at hpred
    omega

theorem c3_retention_strictly_before_witness :
    getAllButNLatestComponents webImages 2 =
      some (webImages.filter (retentionPred webImages 2)) :=
  c3_retention_strictly_before.1 webImages 2 (by norm_num)

/-- Claim C10: `getAllButNLatestComponents` is not total for
`componentsToKeep ≤ 0` — the two loops group EVERY image and look up its
threshold unconditionally, so for every nonempty image list the lookup
evaluates `times[minimumIndex-1]` with `minimumIndex ≤ 0`, an
out-of-range index (the Go slice access panics, modelled as `none`);
under the precondition `componentsToKeep ≥ 1` the function is total. -/
theorem c10_nonpositive_keep_panics :
    (∀ (images : List Image) (k : Int), k ≤ 0 → images ≠ [] →
      getAllButNLatestComponents images k = none) ∧
    (∀ (images : List Image) (k : Int), 1 ≤ k →
      (getAllButNLatestComponents images k).isSome = true) := by
  constructor
  · intro images k hk hne
    unfold getAllButNLatestComponents
    exact getAllButN_none_fold images k
      (fun c => findThreshold_of_nonpos c hk) images hne []
  · intro images k hk
    rw [getAllButN_eq_filter hk]
    rfl

theorem c10_nonpositive_keep_panics_witness :
    getAllButNLatestComponents [unformattedImage] 0 = none ∧
    getAllButNLatestComponents webImages (-3) = none ∧
    (getAllButNLatestComponents webImages 2).isSome = true :=
  ⟨c10_nonpositive_keep_panics.1 [unformattedImage] 0 (by norm_num) (by decide),
   c10_nonpositive_keep_panics.1 webImages (-3) (by norm_num) (by decide),
   c10_nonpositive_keep_panics.2 webImages 2 (by norm_num)⟩

end Cloudsweeper
